import Mathlib

/-!
Verification development for the CoinGecko scraping pipeline
(`crypto_scraper.py` and `email_sender.py`).

The Python/JavaScript source is shallowly embedded: each relevant source
function is translated into an executable Lean definition operating on
`String` (viewed as its list of characters), and the page-traversal loop of
`scrape_all` is modelled as a recursive driver over an explicit list of
per-page inputs.  External effects (browser navigation, the DOM, SMTP, the
file system, interactive input) appear as explicit data: a `DomRow` records
what the page scripts read from one table row, a `PageVisit` records the
outcomes of the navigation and harvest steps for one page, and the file
system / network are threaded as values.
-/

namespace CoinScraper

/-! ### Character-level string helpers (Python/JS primitives) -/

/-- Split a character list at every occurrence of `sep`, keeping empty
segments, as Python `str.split(sep)` does for a one-character separator. -/
def splitChar (sep : Char) : List Char → List (List Char)
  | [] => [[]]
  | c :: cs =>
    if c = sep then [] :: splitChar sep cs
    else
      match splitChar sep cs with
      | t :: ts => (c :: t) :: ts
      | [] => [[c]]

/-- Python `str.strip()`: drop leading and trailing whitespace. -/
def stripChars (s : List Char) : List Char :=
  ((s.dropWhile Char.isWhitespace).reverse.dropWhile Char.isWhitespace).reverse

/-- Python `str.strip()` on `String`. -/
def pyStrip (s : String) : String := ⟨stripChars s.data⟩

/-- Python `str.lower()` (ASCII model). -/
def pyLower (s : String) : String := ⟨s.data.map Char.toLower⟩

/-- Split a `String` on newline characters, Python `name.split("\n")`. -/
def splitOnNl (s : String) : List String := (splitChar '\n' s.data).map fun l => ⟨l⟩

/-- Python `"sep".join` specialised to a single-space separator. -/
def joinSpace : List String → String
  | [] => ""
  | [s] => s
  | s :: rest => s ++ " " ++ joinSpace rest

/-- `true` iff the character occurs in the string (JS `text.includes(c)`). -/
def hasChar (s : String) (c : Char) : Bool := s.data.any fun x => x = c

/-- Python `str.isdigit()` / JS `/^\d+$/` (ASCII model): non-empty and all
decimal digits. -/
def allDigits (s : String) : Bool := !s.data.isEmpty && s.data.all Char.isDigit

/-- Python `str.isalpha()` (ASCII model): non-empty and all letters. -/
def pyIsAlpha (s : String) : Bool := !s.data.isEmpty && s.data.all Char.isAlpha

/-- `part.replace(",", "").replace(".", "")` from `clean_coin_name`: removing
every occurrence of a one-character pattern is a character filter, applied
first for the comma and then for the period. -/
def stripSeps (s : String) : String :=
  ⟨(s.data.filter fun c => !(c = ',' : Bool)).filter fun c => !(c = '.' : Bool)⟩

/-! ### `clean_coin_name` (crypto_scraper.py lines 121-141) -/

/-- The keep-condition of the token loop in `clean_coin_name`: a token
survives unless it is digits-only after removing commas and periods, or is a
case-insensitive literal `buy`, or has length at most 2 without being purely
alphabetic. -/
def keepToken (p : String) : Bool :=
  !allDigits (stripSeps p) && !(pyLower p == "buy")
    && !(decide (p.length ≤ 2) && !pyIsAlpha p)

/-- `clean_coin_name` from `crypto_scraper.py`: split the raw name on line
breaks, strip each part, drop empty parts, drop rank/Buy/icon tokens, rejoin
with single spaces and trim. -/
def cleanCoinName (name : String) : String :=
  let parts := ((splitOnNl name).map pyStrip).filter fun p => !(p == "")
  let cleaned := parts.filter keepToken
  pyStrip (joinSpace cleaned)

/-! ### Spec-side rendering of the name-cleaning sentence (for claim C2).

The spec sentence reads: split on line breaks, drop tokens purely numeric
after stripping thousands separators, drop a case-insensitive `buy` token,
drop tokens of length at most 2 that are not purely alphabetic, rejoin with
single spaces, trimmed.  Thousands separators comprise the comma and the
period (the two grouping characters in use across locales), which is exactly
the pair the source strips. -/

/-- The thousands-separator characters named by the spec. -/
def thousandsSeps : List Char := [',', '.']

/-- Remove every thousands-separator character. -/
def removeSeps (s : String) : String :=
  ⟨s.data.filter fun c => !thousandsSeps.contains c⟩

/-- A token is purely numeric iff it is non-empty and all digits. -/
def isPurelyNumeric (s : String) : Bool := allDigits s

/-- The three drop rules of the spec sentence, as a keep-condition. -/
def specKeep (p : String) : Bool :=
  !isPurelyNumeric (removeSeps p) && !(pyLower p == "buy")
    && !(decide (p.length ≤ 2) && !pyIsAlpha p)

/-- Name cleaning as the spec sentence states it (tokens are the stripped
line-break-separated pieces; the three drop rules; single-space rejoin,
trimmed). -/
def specCleanName (name : String) : String :=
  let toks := (splitOnNl name).map pyStrip
  pyStrip (joinSpace (toks.filter specKeep))

example : cleanCoinName "1\nBitcoin\nBuy" = "Bitcoin" := by decide
example : cleanCoinName "12\nBuy" = "" := by decide
example : specCleanName "1\nBitcoin\nBuy" = "Bitcoin" := by decide
example : cleanCoinName "1,234\nEthereum ETH\nBUY" = "Ethereum ETH" := by decide

/-! ### Content patterns of the Strategy-A cell classifier
(the JavaScript evaluated in `scrape_page`, crypto_scraper.py lines 161-244) -/

/-- JS `/^\d+[\.,]\d/` matched against the start of the text: a non-empty run
of digits, then a period or comma, then a digit.  Since every character
before the separator must be a digit, the separator necessarily follows the
full leading digit run. -/
def decimalTail : List Char → Bool
  | c :: rest =>
    if c.isDigit then decimalTail rest
    else
      (c = '.' || c = ',') &&
        (match rest with
         | d :: _ => d.isDigit
         | [] => false)
  | [] => false

/-- Start-anchored decimal-number pattern `/^\d+[\.,]\d/`. -/
def decimalStart (s : List Char) : Bool :=
  match s with
  | c :: rest => c.isDigit && decimalTail rest
  | [] => false

/-- The price condition of the classifier:
`text.includes('$') || text.match(/^\d+[\.,]\d/)`. -/
def priceCond (t : String) : Bool := hasChar t '$' || decimalStart t.data

/-- JS rank skip `/^\d+$/` (with the truthiness guard `text &&`, which the
anchored digit match subsumes since a match needs at least one digit). -/
def rankLike (t : String) : Bool := allDigits t

/-- The volume/market-cap condition
`text.match(/[\$\d]/) && text.match(/[BMK]|billion|million/i)`.  The
case-insensitive alternation is equivalent to containing one of the letters
b, m, k in either case, because the words `billion` and `million` each
contain such a letter themselves. -/
def bmkCond (t : String) : Bool :=
  (hasChar t '$' || t.data.any Char.isDigit) &&
    t.data.any fun c => c.toLower = 'b' || c.toLower = 'm' || c.toLower = 'k'

/-- The anchored large-number pattern `/^\$?[\d,]+(\.\d+)?[BMK]?$/i`:
an optional dollar sign, a non-empty run of digits and commas, an optional
fraction (period plus non-empty digit run), an optional magnitude suffix,
then end of string. -/
def largeNumPat (s : List Char) : Bool :=
  let s1 := match s with
    | '$' :: r => r
    | r => r
  let p := s1.span fun c => c.isDigit || c = ','
  if p.1.isEmpty then false
  else
    let afterFrac : Option (List Char) :=
      match p.2 with
      | '.' :: r2 =>
        let q := r2.span Char.isDigit
        if q.1.isEmpty then none else some q.2
      | r => some r
    match afterFrac with
    | none => false
    | some r3 =>
      let r4 := match r3 with
        | c :: r5 =>
          if c.toLower = 'b' || c.toLower = 'm' || c.toLower = 'k' then r5
          else c :: r5
        | [] => []
      r4.isEmpty

example : priceCond "$65,000" = true := by decide
example : priceCond "65.4" = true := by decide
example : priceCond "abc" = false := by decide
example : largeNumPat "$1,234.56B".data = true := by decide
example : largeNumPat "12.".data = false := by decide
example : bmkCond "$20B" = true := by decide

/-! ### The Strategy-A slot-filling classifier -/

/-- The six optional field slots mutated by the JS classification loop
(`data.price`, `data.change1h`, `data.change24h`, `data.change7d`,
`data.volume`, `data.marketCap`). -/
structure SlotState where
  price : Option String
  change1h : Option String
  change24h : Option String
  change7d : Option String
  volume : Option String
  marketCap : Option String
deriving DecidableEq, Repr

/-- All slots unfilled, the state before the cell loop runs. -/
def SlotState.empty : SlotState := ⟨none, none, none, none, none, none⟩

/-- The percent branch: fill the first unfilled slot among 1h, 24h, 7d. -/
def fillPercent (t : String) (p : SlotState) : SlotState :=
  if p.change1h.isNone then { p with change1h := some t }
  else if p.change24h.isNone then { p with change24h := some t }
  else if p.change7d.isNone then { p with change7d := some t }
  else p

/-- The large-number branches: fill volume first, then market cap. -/
def fillLarge (t : String) (p : SlotState) : SlotState :=
  if p.volume.isNone then { p with volume := some t }
  else if p.marketCap.isNone then { p with marketCap := some t }
  else p

/-- One iteration of the JS cell loop, on the `(index, cellText)` pair:
skip the first cell and rank-like cells, skip the cell equal to the already
extracted name, otherwise classify into price, percent slots, or
large-number slots. -/
def classifyStep (name : String) (p : SlotState) (ic : Nat × String) : SlotState :=
  if ic.1 = 0 || rankLike ic.2 then p
  else if ic.2 == name then p
  else if p.price.isNone && priceCond ic.2 then { p with price := some ic.2 }
  else if hasChar ic.2 '%' then fillPercent ic.2 p
  else if bmkCond ic.2 then fillLarge ic.2 p
  else if largeNumPat ic.2.data then fillLarge ic.2 p
  else p

/-- The whole JS cell loop over the enumerated cell texts. -/
def classifyCells (name : String) (cells : List String) : SlotState :=
  (cells.enum).foldl (classifyStep name) SlotState.empty

/-- One raw extracted coin record, the shape handed from the in-page
JavaScript back to Python (`js_data` items). -/
structure JsItem where
  name : String
  price : String
  change1h : String
  change24h : String
  change7d : String
  volume : String
  marketCap : String
  graphLink : String
deriving DecidableEq, Repr

/-- Apply the JS defaulting (`data.x = data.x || ''`, and Python
`item.get('price', '')`): every unfilled slot becomes the empty string. -/
def finalizeItem (name url : String) (p : SlotState) : JsItem :=
  ⟨name, p.price.getD "", p.change1h.getD "", p.change24h.getD "",
    p.change7d.getD "", p.volume.getD "", p.marketCap.getD "", url⟩

/-- The classification discipline maintained by the cell loop: a filled
price slot satisfies the price condition; filled percent slots hold
percent-bearing text and are filled in the order 1h, 24h, 7d; filled
volume/market-cap slots hold text matching one of the two large-number
conditions and are filled in the order volume, market cap. -/
def GoodState (p : SlotState) : Prop :=
  (∀ w, p.price = some w → priceCond w = true)
  ∧ (∀ w, p.change1h = some w → hasChar w '%' = true)
  ∧ (∀ w, p.change24h = some w → hasChar w '%' = true)
  ∧ (∀ w, p.change7d = some w → hasChar w '%' = true)
  ∧ (p.change24h.isSome → p.change1h.isSome)
  ∧ (p.change7d.isSome → p.change24h.isSome)
  ∧ (∀ w, p.volume = some w → bmkCond w = true ∨ largeNumPat w.data = true)
  ∧ (∀ w, p.marketCap = some w → bmkCond w = true ∨ largeNumPat w.data = true)
  ∧ (p.marketCap.isSome → p.volume.isSome)

/-- What one `<tr>` of the market table exposes to the page scripts:
the trimmed cell texts, the optional `/coins/` link with its text, and the
row's flat `innerText` used by the fallback strategy. -/
structure DomRow where
  cells : List String
  linkHref : Option String
  linkText : String
  innerText : String
deriving DecidableEq, Repr

/-- The per-row body of the Strategy-A JS (`rows.forEach`): rows with fewer
than 7 cells are skipped; the name comes from the coin link when present and
from the second cell otherwise; rows whose name is falsy are not pushed. -/
def classifyRow (r : DomRow) : Option JsItem :=
  if r.cells.length < 7 then none
  else
    let name := match r.linkHref with
      | some _ => r.linkText
      | none => r.cells.getD 1 ""
    let url := r.linkHref.getD ""
    if name == "" then none
    else some (finalizeItem name url (classifyCells name r.cells))

/-- A normalized output row: the 8-element string list appended to
`rows_data`. -/
abbrev Row := List String

/-- The Python loop over `js_data` (crypto_scraper.py lines 248-262): clean
the coin name, reject the item if the cleaned name is empty, otherwise emit
the 8-column row. -/
def pyNormalize (it : JsItem) : Option Row :=
  let nm := cleanCoinName it.name
  if nm == "" then none
  else some [nm, it.price, it.change1h, it.change24h, it.change7d,
    it.volume, it.marketCap, it.graphLink]

/-! ### Strategy B, the flat-text fallback (crypto_scraper.py lines 264-322) -/

/-- `text.replace('\t', '\n')` followed by split on newlines, strip, and
dropping empty parts. -/
def fallbackParts (s : String) : List String :=
  (((splitChar '\n' (s.data.map fun c => if c = '\t' then '\n' else c)).map
      fun l => pyStrip ⟨l⟩).filter fun p => !(p == ""))

/-- The rank/Buy filter of the fallback path: drop parts that are digits-only
after removing commas and periods and shorter than 4 characters, and drop a
case-insensitive `buy`. -/
def fallbackFilter (parts : List String) : List String :=
  parts.filter fun p =>
    !(allDigits (stripSeps p) && decide (p.length < 4)) && !(pyLower p == "buy")

/-- The per-row body of the fallback loop: skip rows with fewer than 7 raw
parts or fewer than 7 surviving parts, clean the first surviving part as the
name, reject when it cleans to empty, otherwise assign the remaining parts
positionally. -/
def fallbackRow (r : DomRow) : Option Row :=
  let parts := fallbackParts r.innerText
  if parts.length < 7 then none
  else
    let filtered := fallbackFilter parts
    if filtered.length < 7 then none
    else
      let nm := cleanCoinName (filtered.getD 0 "")
      if nm == "" then none
      else some [nm, filtered.getD 1 "", filtered.getD 2 "", filtered.getD 3 "",
        filtered.getD 4 "", filtered.getD 5 "", filtered.getD 6 "",
        r.linkHref.getD ""]

/-- Strategy A applied to one DOM row: the JS extraction followed by the
Python normalization. -/
def pageRow (r : DomRow) : Option Row := (classifyRow r).bind pyNormalize

/-- `scrape_page`: collect the Strategy-A rows over the whole table; if none
survive, run the fallback extraction over the same DOM rows. -/
def scrapePage (dom : List DomRow) : List Row :=
  let rowsA := dom.filterMap pageRow
  if rowsA.isEmpty then dom.filterMap fallbackRow else rowsA

example :
    pageRow ⟨["1", "Bitcoin", "$65,000", "+0.5%", "-1.2%", "3.4%", "$20B"],
      some "https://x/coins/bitcoin", "1\nBitcoin\nBuy", ""⟩ =
    some ["Bitcoin", "$65,000", "+0.5%", "-1.2%", "3.4%", "$20B", "",
      "https://x/coins/bitcoin"] := by decide

/-! ### The pagination driver `scrape_all` (crypto_scraper.py lines 435-552)

One `PageVisit` records everything the external collaborators decide during
one iteration of the `while True` loop: whether the first `goto`
(`domcontentloaded`) succeeds, whether the relaxed retry (`load`) succeeds,
the DOM that `scrape_page` reads on the first harvest, the DOM it reads on
the page-1 extended-wait re-harvest, and whether `click_next_page`
succeeds. -/

structure PageVisit where
  navOk : Bool
  navRetryOk : Bool
  dom1 : List DomRow
  dom2 : List DomRow
  nextOk : Bool
deriving DecidableEq, Repr

/-- How the traversal loop ended: `success` when the next-page affordance was
absent, `stalled` when navigation failed twice or a harvest produced no
rows. -/
inductive DoneKind
  | success
  | stalled
deriving DecidableEq, Repr

/-- The observable outcome of `scrape_all`: the returned table, the snapshot
passed to `build_excel` at each progressive save, the pages on which the
extended-wait re-harvest ran, the pages on which the relaxed navigation retry
ran, and how the loop ended (`none` when the supplied visit list ran out
before the loop chose to stop). -/
structure DriveResult where
  table : List Row
  builds : List (List Row)
  retriedHarvest : List Nat
  navRetried : List Nat
  done : Option DoneKind
deriving DecidableEq, Repr

/-- The `while True` loop of `scrape_all`, unrolled over the visit list.
`n` is `page_num` and `acc` is `all_rows`. -/
def drive : List PageVisit → Nat → List Row → DriveResult
  | [], _, acc => ⟨acc, [], [], [], none⟩
  | v :: rest, n, acc =>
    let navR : List Nat := if v.navOk then [] else [n]
    if v.navOk = false ∧ v.navRetryOk = false then
      ⟨acc, [], [], navR, some .stalled⟩
    else if (scrapePage v.dom1).isEmpty ∧ n = 1 then
      if (scrapePage v.dom2).isEmpty then ⟨acc, [], [n], navR, some .stalled⟩
      else if v.nextOk then
        let rr := drive rest (n + 1) (acc ++ scrapePage v.dom2)
        ⟨rr.table, (acc ++ scrapePage v.dom2) :: rr.builds,
          [n] ++ rr.retriedHarvest, navR ++ rr.navRetried, rr.done⟩
      else
        ⟨acc ++ scrapePage v.dom2, [acc ++ scrapePage v.dom2], [n], navR,
          some .success⟩
    else if (scrapePage v.dom1).isEmpty then ⟨acc, [], [], navR, some .stalled⟩
    else if v.nextOk then
      let rr := drive rest (n + 1) (acc ++ scrapePage v.dom1)
      ⟨rr.table, (acc ++ scrapePage v.dom1) :: rr.builds, rr.retriedHarvest,
        navR ++ rr.navRetried, rr.done⟩
    else
      ⟨acc ++ scrapePage v.dom1, [acc ++ scrapePage v.dom1], [], navR,
        some .success⟩

/-- `scrape_all` itself: run the loop from page 1 with an empty table. -/
def scrapeAll (visits : List PageVisit) : DriveResult := drive visits 1 []

/-- The per-page DOM batches that the loop actually harvests, in page order:
on a page-1 retry both harvests ran; a stop cuts the list. -/
def processedDoms : List PageVisit → Nat → List (List DomRow)
  | [], _ => []
  | v :: rest, n =>
    if v.navOk = false ∧ v.navRetryOk = false then []
    else if (scrapePage v.dom1).isEmpty ∧ n = 1 then
      if (scrapePage v.dom2).isEmpty then [v.dom1, v.dom2]
      else [v.dom1, v.dom2] ++ (if v.nextOk then processedDoms rest (n + 1) else [])
    else if (scrapePage v.dom1).isEmpty then [v.dom1]
    else [v.dom1] ++ (if v.nextOk then processedDoms rest (n + 1) else [])

/-! ### The spreadsheet builder `build_excel` (crypto_scraper.py lines 575-652) -/

/-- The fixed column headers. -/
def HEADERS : List String :=
  ["Coin Name", "Price (USD)", "1h %", "24h %", "7d %",
   "24h Volume (USD)", "Market Cap (USD)", "Coin Link"]

/-- One worksheet cell assignment: 1-based row and column plus the value. -/
structure Cell where
  row : Nat
  col : Nat
  val : String
deriving DecidableEq, Repr

/-- The data-cell assignments of the loop
`for row_idx, row_data in enumerate(rows, start=r)` writing each value at
`(row_idx, col_idx)` with columns enumerated from 1. -/
def dataCellsFrom (r : Nat) : List Row → List Cell
  | [] => []
  | row :: rest =>
    (row.enum.map fun q => Cell.mk r (1 + q.1) q.2) ++ dataCellsFrom (r + 1) rest

/-- The header-cell assignments (row 3, columns from 1). -/
def headerCells : List Cell := HEADERS.enum.map fun q => Cell.mk 3 (1 + q.1) q.2

/-- The subtitle written in row 2 of the sheet (timestamp and row count). -/
def subtitleText (now : String) (n : Nat) : String :=
  "Scraped on  " ++ now ++ "  •  " ++ toString n ++ " coins"

/-- The rendered workbook content: title, subtitle and the cell grid. -/
structure Sheet where
  title : String
  subtitle : String
  header : List Cell
  dataCells : List Cell
deriving DecidableEq, Repr

/-- `build_excel` as a pure renderer: a fresh `Workbook()` is created and the
title, subtitle, headers and the data rows (starting at sheet row 4) are
written from the given rows alone. -/
def buildSheet (rows : List Row) (now : String) : Sheet :=
  ⟨"CoinGecko – Cryptocurrency Market Data", subtitleText now rows.length,
    headerCells, dataCellsFrom 4 rows⟩

/-- `build_excel` acting on the output file: `wb.save` replaces whatever the
destination held before, so the previous content is ignored entirely. -/
def buildExcelFS (rows : List Row) (now : String) (_prior : Option Sheet) :
    Option Sheet :=
  some (buildSheet rows now)

/-- The values stored at a given sheet row, in the order they were written. -/
def rowVals (cells : List Cell) (r : Nat) : List String :=
  (cells.filter fun c => c.row = r).map fun c => c.val

/-! ### Email delivery -/

/-- The SMTP configuration read from the environment. -/
structure EmailCfg where
  host : String
  port : String
  user : String
  pswd : String
  recipient : String
deriving DecidableEq, Repr

/-- Outcome of the delivery step in `send_email`. -/
inductive SendOutcome
  | skipped
  | sent
  | failed
deriving DecidableEq, Repr

/-- `send_email` (crypto_scraper.py lines 659-706): when any of user,
password or recipient is empty the function prints a skip notice and returns
before building the message; otherwise the SMTP exchange runs (collapsed
into the `netOk` flag — the `except` clause only prints).  The second
component records whether a network connection was attempted. -/
def sendEmail (cfg : EmailCfg) (netOk : Bool) : SendOutcome × Bool :=
  if cfg.user = "" ∨ cfg.pswd = "" ∨ cfg.recipient = "" then (.skipped, false)
  else ((if netOk then .sent else .failed), true)

/-- `send_email_with_attachment` (email_sender.py lines 40-162): missing
credentials or a missing file return `False` before any connection; the
second component again records whether a connection was attempted. -/
def sendWithAttachment (user pswd recipient : String)
    (fileExists netOk : Bool) : Bool × Bool :=
  if user = "" ∨ pswd = "" ∨ recipient = "" then (false, false)
  else if fileExists = false then (false, false)
  else (netOk, true)

/-- The observable outcome of `main` in crypto_scraper.py. -/
structure RunResult where
  table : List Row
  noData : Bool
  emailOutcome : Option SendOutcome
  netAttempted : Bool
deriving DecidableEq, Repr

/-- `main` (crypto_scraper.py lines 713-740): scrape everything; when the
table is empty report that no data was collected and return before the email
phase; otherwise run the delivery step. -/
def mainRun (visits : List PageVisit) (cfg : EmailCfg) (netOk : Bool) :
    RunResult :=
  let rows := (scrapeAll visits).table
  if rows.isEmpty then ⟨rows, true, none, false⟩
  else ⟨rows, false, some (sendEmail cfg netOk).1, (sendEmail cfg netOk).2⟩

/-! ### The companion dispatch CLI (`email_sender.py main`, lines 242-336) -/

/-- Python `int(s)` on an already-stripped string (ASCII model: an optional
minus sign followed by a non-empty digit run). -/
def pyParseInt (s : String) : Option Int :=
  match s.data with
  | [] => none
  | '-' :: rest =>
    if !rest.isEmpty && rest.all Char.isDigit then
      some (-(Int.ofNat (rest.foldl (fun a c => a * 10 + (c.toNat - 48)) 0)))
    else none
  | l =>
    if l.all Char.isDigit then
      some (Int.ofNat (l.foldl (fun a c => a * 10 + (c.toNat - 48)) 0))
    else none

/-- Result of the interactive numeric chooser loop. -/
inductive ChooseOut
  | cancelled
  | chosen (idx : Nat)
  | blocked
deriving DecidableEq, Repr

/-- The `while True` selection loop shown when several files are found:
read a response, quit on q/quit/exit, pick a file on an in-range number,
re-prompt otherwise; `blocked` means the supplied responses ran out. -/
def chooseLoop (n : Nat) : List String → ChooseOut
  | [] => .blocked
  | r :: rest =>
    let c := pyStrip r
    if pyLower c == "q" || pyLower c == "quit" || pyLower c == "exit" then
      .cancelled
    else
      match pyParseInt c with
      | none => chooseLoop n rest
      | some k => if 1 ≤ k ∧ k ≤ (n : Int) then .chosen k.toNat else chooseLoop n rest

/-- The inputs determining one run of the dispatch CLI: the optional file
argument, the list of discovered spreadsheet files, the interactive
responses, and whether the send (once attempted) succeeds. -/
structure SenderArgs where
  fileArg : Option String
  available : List String
  responses : List String
  sendOk : Bool
deriving DecidableEq, Repr

/-- The observable outcome of the dispatch CLI: the exit status (`none` when
the run is still waiting on input), whether a send was attempted, and whether
the user cancelled interactively. -/
structure SenderResult where
  exitCode : Option Nat
  sendAttempted : Bool
  cancelled : Bool
deriving DecidableEq, Repr

/-- `main` of email_sender.py: an explicit file argument goes straight to the
send; with no argument and no files found exit 1; with exactly one file ask
for confirmation (empty or y/yes proceeds, anything else exits 0); with
several files run the numeric chooser (q exits 0); after a send exit 0 on
success and 1 on failure. -/
def senderMain (a : SenderArgs) : SenderResult :=
  match a.fileArg with
  | some _ => ⟨some (if a.sendOk then 0 else 1), true, false⟩
  | none =>
    match a.available with
    | [] => ⟨some 1, false, false⟩
    | [_] =>
      match a.responses with
      | [] => ⟨none, false, false⟩
      | r :: _ =>
        let resp := pyLower (pyStrip r)
        if !(resp == "") && !(resp == "y") && !(resp == "yes") then
          ⟨some 0, false, true⟩
        else ⟨some (if a.sendOk then 0 else 1), true, false⟩
    | _ =>
      match chooseLoop a.available.length a.responses with
      | .cancelled => ⟨some 0, false, true⟩
      | .blocked => ⟨none, false, false⟩
      | .chosen _ => ⟨some (if a.sendOk then 0 else 1), true, false⟩

example :
    senderMain ⟨none, ["a.xlsx", "b.xlsx"], ["zzz", "2"], true⟩ =
    ⟨some 0, true, false⟩ := by decide
example :
    senderMain ⟨none, ["a.xlsx"], ["n"], true⟩ = ⟨some 0, false, true⟩ := by
  decide
example :
    senderMain ⟨none, ["a.xlsx", "b.xlsx"], ["Q"], true⟩ =
    ⟨some 0, false, true⟩ := by decide

/-! ## Theorems -/

/-! ### C2: the name-cleaning function matches the spec sentence -/

theorem stripSeps_eq_removeSeps (s : String) : stripSeps s = removeSeps s := by
  unfold stripSeps removeSeps thousandsSeps
  congr 1
  induction s.data with
  | nil => rfl
  | cons c cs ih =>
    by_cases h1 : c = ','
    · subst h1; simp [List.filter_cons, ih]
    · by_cases h2 : c = '.'
      · subst h2; simp [List.filter_cons, ih]
      · simp [List.filter_cons, h1, h2, ih]

theorem keepToken_eq_specKeep (p : String) : keepToken p = specKeep p := by
  unfold keepToken specKeep isPurelyNumeric
  rw [stripSeps_eq_removeSeps]

theorem specKeep_empty : specKeep "" = false := by decide

theorem filter_specKeep_drop_empty (l : List String) :
    (l.filter fun p => !(p == "")).filter specKeep = l.filter specKeep := by
  induction l with
  | nil => rfl
  | cons p ps ih =>
    by_cases hp : p = ""
    · subst hp
      simpa [List.filter_cons, specKeep_empty] using ih
    · simp [List.filter_cons, hp, ih]

/-- C2: for every raw name string, the name-cleaning function splits on line
breaks, drops tokens that are purely numeric after stripping the thousands
separators (comma and period), drops a case-insensitive literal `buy` token,
drops tokens of length at most 2 that are not purely alphabetic, and rejoins
the remaining tokens with single spaces, trimmed: `clean_coin_name` agrees
with the cleaning function stated by the spec on every input. -/
theorem clean_coin_name_matches_spec (name : String) :
    cleanCoinName name = specCleanName name := by
  unfold cleanCoinName specCleanName
  have hpred : keepToken = specKeep := funext keepToken_eq_specKeep
  simp only [hpred]
  rw [filter_specKeep_drop_empty]

/-- C2 witness: the spec agreement evaluated at a concrete raw name. -/
theorem clean_coin_name_matches_spec_witness :
    cleanCoinName "1\nBitcoin\nBuy" = specCleanName "1\nBitcoin\nBuy"
    ∧ cleanCoinName "1\nBitcoin\nBuy" = "Bitcoin" :=
  ⟨clean_coin_name_matches_spec "1\nBitcoin\nBuy", by decide⟩

/-! ### C3: an empty cleaned name always rejects the candidate -/

theorem pyNormalize_none_of_empty_name (it : JsItem)
    (h : cleanCoinName it.name = "") : pyNormalize it = none := by
  unfold pyNormalize
  simp [h]

/-- C3: a raw candidate whose cleaned name is empty is rejected by
normalization on both extraction paths (no `Row` is produced), and the
normalized output of a batch is unchanged by the presence of such a
candidate. -/
theorem empty_name_rejected :
    (∀ it : JsItem, cleanCoinName it.name = "" → pyNormalize it = none)
    ∧ (∀ r : DomRow,
        cleanCoinName ((fallbackFilter (fallbackParts r.innerText)).getD 0 "") = "" →
        fallbackRow r = none)
    ∧ (∀ (l₁ l₂ : List JsItem) (it : JsItem), cleanCoinName it.name = "" →
        (l₁ ++ it :: l₂).filterMap pyNormalize = (l₁ ++ l₂).filterMap pyNormalize) := by
  refine ⟨pyNormalize_none_of_empty_name, ?_, ?_⟩
  · intro r h
    simp only [fallbackRow]
    split
    · rfl
    · split
      · rfl
      · have h2 : cleanCoinName ((fallbackFilter
            (fallbackParts r.innerText))[0]?.getD "") = "" := by
          simpa using h
        simp [h2]
  · intro l₁ l₂ it h
    simp [List.filterMap_append, List.filterMap_cons,
      pyNormalize_none_of_empty_name it h]

/-- C3 witness: a candidate whose raw name is a rank plus a Buy label cleans
to the empty name and is rejected, leaving the batch output unchanged. -/
theorem empty_name_rejected_witness :
    pyNormalize ⟨"1\nBuy", "$1", "", "", "", "", "", ""⟩ = none
    ∧ ([⟨"1\nBuy", "$1", "", "", "", "", "", ""⟩] : List JsItem).filterMap
        pyNormalize = ([] : List JsItem).filterMap pyNormalize := by
  refine ⟨empty_name_rejected.1 _ (by decide), ?_⟩
  have h := empty_name_rejected.2.2 [] [] ⟨"1\nBuy", "$1", "", "", "", "", "", ""⟩
      (by decide)
  simpa using h

/-! ### C10: short rows are skipped on both extraction paths -/

theorem classifyRow_none_of_short (r : DomRow) (h : r.cells.length < 7) :
    classifyRow r = none := by
  unfold classifyRow
  simp [h]

theorem fallbackRow_none_of_short (r : DomRow)
    (h : (fallbackFilter (fallbackParts r.innerText)).length < 7) :
    fallbackRow r = none := by
  simp only [fallbackRow]
  split
  · rfl
  · simp [h]

/-- C10: a raw table row with fewer than 7 cells (primary path) or fewer
than 7 surviving text tokens (fallback path) is skipped before
normalization, and contributes no row to a page regardless of its
content. -/
theorem short_rows_skipped :
    (∀ r : DomRow, r.cells.length < 7 → classifyRow r = none)
    ∧ (∀ r : DomRow, (fallbackFilter (fallbackParts r.innerText)).length < 7 →
        fallbackRow r = none)
    ∧ (∀ (d₁ d₂ : List DomRow) (r : DomRow), r.cells.length < 7 →
        (fallbackFilter (fallbackParts r.innerText)).length < 7 →
        scrapePage (d₁ ++ r :: d₂) = scrapePage (d₁ ++ d₂)) := by
  refine ⟨classifyRow_none_of_short, fallbackRow_none_of_short, ?_⟩
  intro d₁ d₂ r h1 h2
  have ha : pageRow r = none := by
    unfold pageRow
    rw [classifyRow_none_of_short r h1]
    rfl
  have hb : fallbackRow r = none := fallbackRow_none_of_short r h2
  unfold scrapePage
  simp [List.filterMap_append, List.filterMap_cons, ha, hb]

/-- C10 witness: a row presenting a single cell and a blank flat text is
skipped by both paths and leaves the page output unchanged. -/
theorem short_rows_skipped_witness :
    classifyRow ⟨["only"], none, "", ""⟩ = none
    ∧ scrapePage [⟨["only"], none, "", ""⟩] = scrapePage [] := by
  refine ⟨short_rows_skipped.1 _ (by decide), ?_⟩
  have h := short_rows_skipped.2.2 [] [] ⟨["only"], none, "", ""⟩ (by decide)
      (by decide)
  simpa using h

/-! ### C7: rendering is deterministic in the rows and overwrites fully -/

theorem rowVals_append (A B : List Cell) (t : Nat) :
    rowVals (A ++ B) t = rowVals A t ++ rowVals B t := by
  unfold rowVals
  rw [List.filter_append, List.map_append]

theorem rowVals_enumFrom_self (l : List String) (k r : Nat) :
    rowVals ((l.enumFrom k).map fun q => Cell.mk r (1 + q.1) q.2) r = l := by
  unfold rowVals
  rw [List.filter_map]
  have hf : (l.enumFrom k).filter
      ((fun c : Cell => decide (c.row = r)) ∘ fun q => Cell.mk r (1 + q.1) q.2) =
      l.enumFrom k := by
    rw [List.filter_eq_self]
    intro q _
    simp
  rw [hf, List.map_map]
  have hsnd : ((fun c : Cell => c.val) ∘ fun q : Nat × String =>
      Cell.mk r (1 + q.1) q.2) = Prod.snd := rfl
  rw [hsnd]
  exact List.enumFrom_map_snd k l

theorem rowVals_enumFrom_ne (l : List String) (k r t : Nat) (h : r ≠ t) :
    rowVals ((l.enumFrom k).map fun q => Cell.mk r (1 + q.1) q.2) t = [] := by
  unfold rowVals
  rw [List.filter_map]
  have hf : (l.enumFrom k).filter
      ((fun c : Cell => decide (c.row = t)) ∘ fun q => Cell.mk r (1 + q.1) q.2) =
      [] := by
    rw [List.filter_eq_nil_iff]
    intro q _
    simp [h]
  rw [hf]
  rfl

theorem rowVals_dataCellsFrom_lt (rows : List Row) (r t : Nat) (h : t < r) :
    rowVals (dataCellsFrom r rows) t = [] := by
  induction rows generalizing r with
  | nil => rfl
  | cons row rest ih =>
    simp only [dataCellsFrom]
    rw [rowVals_append]
    have h1 : rowVals ((row.enum).map fun q => Cell.mk r (1 + q.1) q.2) t = [] := by
      have : (row.enum) = row.enumFrom 0 := rfl
      rw [this]
      exact rowVals_enumFrom_ne row 0 r t (by omega)
    rw [h1, ih (r + 1) (by omega)]
    rfl

theorem rowVals_dataCellsFrom (rows : List Row) (r i : Nat) :
    rowVals (dataCellsFrom r rows) (r + i) = rows.getD i [] := by
  induction rows generalizing r i with
  | nil => simp [dataCellsFrom, rowVals]
  | cons row rest ih =>
    simp only [dataCellsFrom]
    rw [rowVals_append]
    cases i with
    | zero =>
      have h1 : rowVals ((row.enum).map fun q => Cell.mk r (1 + q.1) q.2)
          (r + 0) = row := by
        have : (row.enum) = row.enumFrom 0 := rfl
        rw [this]
        simpa using rowVals_enumFrom_self row 0 r
      rw [h1, rowVals_dataCellsFrom_lt rest (r + 1) (r + 0) (by omega)]
      simp
    | succ j =>
      have h1 : rowVals ((row.enum).map fun q => Cell.mk r (1 + q.1) q.2)
          (r + (j + 1)) = [] := by
        have : (row.enum) = row.enumFrom 0 := rfl
        rw [this]
        exact rowVals_enumFrom_ne row 0 r (r + (j + 1)) (by omega)
      have h2 : r + (j + 1) = (r + 1) + j := by omega
      rw [h1, h2, ih (r + 1) j]
      simp

/-- C7: rendering a row sequence is a pure function of the rows (and the
render-time timestamp): each call produces the full sheet and overwrites the
destination regardless of its prior content, so the result does not depend
on any earlier render with a smaller prefix; the sheet carries the fixed
header block and one data row per input row, in input order, at sheet rows
4, 5, .... -/
theorem render_overwrites_deterministically
    (rows : List Row) (now : String) (p1 p2 : Option Sheet) :
    buildExcelFS rows now p1 = some (buildSheet rows now)
    ∧ buildExcelFS rows now p1 = buildExcelFS rows now p2
    ∧ (buildSheet rows now).header = headerCells
    ∧ (buildSheet rows now).subtitle = subtitleText now rows.length
    ∧ (∀ i, rowVals (buildSheet rows now).dataCells (4 + i) = rows.getD i []) := by
  refine ⟨rfl, rfl, rfl, rfl, ?_⟩
  intro i
  exact rowVals_dataCellsFrom rows 4 i

/-! ### C8: incomplete delivery configuration is a skip, not an attempt -/

/-- C8: when the SMTP user, password or recipient is empty, the delivery
step of the scraper returns a skipped outcome without attempting a network
connection, the companion sender returns failure equally without a
connection, and a run that scraped data still completes its scraping phase
(the table is reported, `noData` is false) with delivery skipped. -/
theorem missing_config_skips_delivery (cfg : EmailCfg) (netOk fe : Bool)
    (h : cfg.user = "" ∨ cfg.pswd = "" ∨ cfg.recipient = "") :
    sendEmail cfg netOk = (.skipped, false)
    ∧ sendWithAttachment cfg.user cfg.pswd cfg.recipient fe netOk = (false, false)
    ∧ (∀ visits, (scrapeAll visits).table ≠ [] →
        mainRun visits cfg netOk =
          ⟨(scrapeAll visits).table, false, some .skipped, false⟩) := by
  refine ⟨by simp [sendEmail, h], by simp [sendWithAttachment, h], ?_⟩
  intro visits hv
  unfold mainRun
  simp [List.isEmpty_iff, hv, sendEmail, h]

/-- C8 witness: with an empty SMTP user and one successfully scraped page,
the run keeps its table, reports data, and skips delivery with no network
attempt. -/
theorem missing_config_skips_delivery_witness :
    sendEmail ⟨"smtp.gmail.com", "587", "", "p", "r"⟩ true = (.skipped, false)
    ∧ mainRun
        [⟨true, true, [⟨["1", "Bitcoin", "$65,000", "+0.5%", "-1.2%", "3.4%",
            "$20B"], some "https://x/coins/bitcoin", "Bitcoin", ""⟩], [], false⟩]
        ⟨"smtp.gmail.com", "587", "", "p", "r"⟩ true =
      ⟨[["Bitcoin", "$65,000", "+0.5%", "-1.2%", "3.4%", "$20B", "",
          "https://x/coins/bitcoin"]], false, some .skipped, false⟩ := by
  have h := missing_config_skips_delivery ⟨"smtp.gmail.com", "587", "", "p", "r"⟩
      true true (Or.inl rfl)
  refine ⟨h.1, ?_⟩
  have h2 := h.2.2
      [⟨true, true, [⟨["1", "Bitcoin", "$65,000", "+0.5%", "-1.2%", "3.4%",
          "$20B"], some "https://x/coins/bitcoin", "Bitcoin", ""⟩], [], false⟩]
      (by decide)
  rw [h2]
  decide

/-! ### C9: exit codes of the companion dispatch CLI -/

/-- C9 counterexample: the claim states that the CLI exits 0 exactly when
the send succeeds (and 1 in every other case, including user cancellation).
With one discovered file and the response `n` at the confirmation prompt the
program runs `sys.exit(0)` without attempting any send, so a cancelled run
exits 0, not 1. -/
theorem sender_exit_claim_false :
    ¬ ∀ a : SenderArgs, ((senderMain a).exitCode = some 0 ↔
        ((senderMain a).sendAttempted = true ∧ a.sendOk = true)) := by
  intro h
  have h2 := (h ⟨none, ["report.xlsx"], ["n"], false⟩).mp (by decide)
  exact absurd h2.1 (by decide)

/-- C9 (amended): the dispatch CLI exits 0 exactly when the send succeeds or
the user cancels at an interactive prompt, and exits 1 exactly when an
attempted send fails or no matching files are found; runs still waiting on
input have no exit code. -/
theorem sender_exit_codes (a : SenderArgs) :
    ((senderMain a).exitCode = some 0 ↔
      ((senderMain a).sendAttempted = true ∧ a.sendOk = true)
        ∨ (senderMain a).cancelled = true)
    ∧ ((senderMain a).exitCode = some 1 ↔
      ((senderMain a).sendAttempted = true ∧ a.sendOk = false)
        ∨ (a.fileArg = none ∧ a.available = [])) := by
  obtain ⟨fa, av, resp, so⟩ := a
  cases fa with
  | some f => cases so <;> simp [senderMain]
  | none =>
    cases av with
    | nil => simp [senderMain]
    | cons f1 avt =>
      cases avt with
      | nil =>
        cases resp with
        | nil => simp [senderMain]
        | cons r rs =>
          by_cases hc : (!(pyLower (pyStrip r) == "") && !(pyLower (pyStrip r) == "y")
              && !(pyLower (pyStrip r) == "yes")) = true
          · simp [senderMain, hc]
          · rw [Bool.not_eq_true] at hc
            cases so <;> simp [senderMain, hc]
      | cons f2 avt2 =>
        rcases h : chooseLoop (avt2.length + 1 + 1) resp with _ | k | _ <;>
          cases so <;> simp [senderMain, h]

/-! ### C1: the table is the ordered concatenation of the processed batches -/

theorem drive_table_eq (visits : List PageVisit) : ∀ n acc,
    (drive visits n acc).table =
      acc ++ ((processedDoms visits n).map scrapePage).flatten := by
  induction visits with
  | nil => intro n acc; simp [drive, processedDoms]
  | cons v rest ih =>
    intro n acc
    by_cases h1 : v.navOk = false ∧ v.navRetryOk = false
    · simp [drive, processedDoms, h1]
    · by_cases h2 : (scrapePage v.dom1).isEmpty ∧ n = 1
      · have e1 : scrapePage v.dom1 = [] := by
          simpa using h2.1
        by_cases h3 : (scrapePage v.dom2).isEmpty
        · have e2 : scrapePage v.dom2 = [] := by
            simpa using h3
          simp [drive, processedDoms, h1, h2.2, e1, e2]
        · have e2 : ¬scrapePage v.dom2 = [] := by
            simpa using h3
          by_cases h4 : v.nextOk
          · simp [drive, processedDoms, h1, h2.2, e1, e2, h4, ih]
          · simp [drive, processedDoms, h1, h2.2, e1, e2, h4]
      · by_cases h5 : (scrapePage v.dom1).isEmpty
        · have e1 : scrapePage v.dom1 = [] := by
            simpa using h5
          have hn1 : ¬n = 1 := fun hh => h2 ⟨h5, hh⟩
          simp [drive, processedDoms, h1, hn1, e1]
        · have e1 : ¬scrapePage v.dom1 = [] := by
            simpa using h5
          by_cases h4 : v.nextOk
          · simp [drive, processedDoms, h1, e1, h4, ih]
          · simp [drive, processedDoms, h1, e1, h4]

/-- C1: the table returned by `scrape_all` is exactly the concatenation, in
page order, of the per-batch outputs of `scrape_page` (each of which is the
in-order sequence of normalized, non-rejected rows of that batch): nothing
is reordered, dropped after acceptance, or deduplicated. -/
theorem scrape_all_concat (visits : List PageVisit) :
    (scrapeAll visits).table = ((processedDoms visits 1).map scrapePage).flatten := by
  have h := drive_table_eq visits 1 []
  simpa [scrapeAll] using h

/-! ### C5: the extended-wait re-harvest happens once, only on page 1 -/

theorem retried_nil_of_two_le (visits : List PageVisit) : ∀ n acc, 2 ≤ n →
    (drive visits n acc).retriedHarvest = [] := by
  induction visits with
  | nil => intro n acc _; simp [drive]
  | cons v rest ih =>
    intro n acc hn
    have hn1 : ¬n = 1 := by omega
    by_cases h1 : v.navOk = false ∧ v.navRetryOk = false
    · simp [drive, h1]
    · by_cases h5 : (scrapePage v.dom1).isEmpty
      · have e1 : scrapePage v.dom1 = [] := by
          simpa using h5
        simp [drive, h1, hn1, e1]
      · have e1 : ¬scrapePage v.dom1 = [] := by
          simpa using h5
        by_cases h4 : v.nextOk
        · simp [drive, h1, hn1, e1, h4]
          exact ih (n + 1) _ (by omega)
        · simp [drive, h1, hn1, e1, h4]

/-- C5: on a zero-row harvest, exactly one extended-wait re-harvest is
attempted and only on the very first page: over any whole run the re-harvest
happens at most once and only at page 1; a zero-row page at page 2 or later
stops the traversal at once with no re-harvest; and when page 1 stays empty
after the retry the traversal ends stalled with an empty table, no
spreadsheet build, a run report of no data collected, and no delivery
attempt. -/
theorem first_page_retry_policy :
    (∀ visits acc, (drive visits 1 acc).retriedHarvest = []
      ∨ (drive visits 1 acc).retriedHarvest = [1])
    ∧ (∀ (v : PageVisit) rest n acc, 2 ≤ n → scrapePage v.dom1 = [] →
        ¬(v.navOk = false ∧ v.navRetryOk = false) →
        drive (v :: rest) n acc =
          ⟨acc, [], [], if v.navOk then [] else [n], some .stalled⟩)
    ∧ (∀ (v : PageVisit) cfg netOk, scrapePage v.dom1 = [] →
        scrapePage v.dom2 = [] → ¬(v.navOk = false ∧ v.navRetryOk = false) →
        drive [v] 1 [] =
          ⟨[], [], [1], if v.navOk then [] else [1], some .stalled⟩
        ∧ mainRun [v] cfg netOk = ⟨[], true, none, false⟩) := by
  refine ⟨?_, ?_, ?_⟩
  · intro visits acc
    cases visits with
    | nil => left; simp [drive]
    | cons v rest =>
      by_cases h1 : v.navOk = false ∧ v.navRetryOk = false
      · left; simp [drive, h1]
      · by_cases h2 : (scrapePage v.dom1).isEmpty
        · by_cases h3 : (scrapePage v.dom2).isEmpty
          · right; simp [drive, h1, h2, h3]
          · by_cases h4 : v.nextOk
            · right
              simp [drive, h1, h2, h3, h4,
                retried_nil_of_two_le rest 2 _ (by omega)]
            · right; simp [drive, h1, h2, h3, h4]
        · have h2' : ¬((scrapePage v.dom1).isEmpty ∧ (1 : Nat) = 1) := by
            simp [h2]
          by_cases h4 : v.nextOk
          · left
            simp [drive, h1, h2, h2', h4,
              retried_nil_of_two_le rest 2 _ (by omega)]
          · left; simp [drive, h1, h2, h2', h4]
  · intro v rest n acc hn he hnav
    have hn1 : ¬n = 1 := by omega
    simp [drive, hnav, hn1, he]
  · intro v cfg netOk he1 he2 hnav
    have hd : drive [v] 1 [] =
        ⟨[], [], [1], if v.navOk then [] else [1], some .stalled⟩ := by
      simp [drive, hnav, he1, he2]
    refine ⟨hd, ?_⟩
    unfold mainRun scrapeAll
    rw [hd]
    rfl

/-- C5 witness: a run whose only page yields no rows on the harvest and on
the extended-wait re-harvest stalls with an empty table, one re-harvest at
page 1, no build, a no-data report and no delivery; the general bound and
the page-2 stop are instantiated alongside. -/
theorem first_page_retry_policy_witness :
    (drive [⟨true, true, [], [], true⟩] 1 [] =
      ⟨[], [], [1], [], some .stalled⟩)
    ∧ mainRun [⟨true, true, [], [], true⟩] ⟨"h", "587", "u", "p", "r"⟩ true =
      ⟨[], true, none, false⟩
    ∧ drive [⟨true, true, [], [], true⟩] 2 [["row"]] =
      ⟨[["row"]], [], [], [], some .stalled⟩
    ∧ ((drive [] 1 []).retriedHarvest = [] ∨ (drive [] 1 []).retriedHarvest = [1]) := by
  have h3 := first_page_retry_policy.2.2 ⟨true, true, [], [], true⟩
      ⟨"h", "587", "u", "p", "r"⟩ true rfl rfl (by decide)
  have h2 := first_page_retry_policy.2.1 ⟨true, true, [], [], true⟩ []
      2 [["row"]] (by omega) rfl (by decide)
  exact ⟨by simpa using h3.1, h3.2, by simpa using h2,
    first_page_retry_policy.1 [] []⟩

/-! ### C6: navigation failure is retried once; partial results survive -/

/-- C6: a page-load failure is retried once with the relaxed readiness
condition (the retried page is recorded); when the retry also fails the
traversal ends stalled and returns exactly the rows accumulated so far; and
in general the returned table always extends the accumulated rows — partial
results are never discarded. -/
theorem nav_failure_keeps_accumulated :
    (∀ (v : PageVisit) rest n acc, v.navOk = false → v.navRetryOk = false →
      drive (v :: rest) n acc = ⟨acc, [], [], [n], some .stalled⟩)
    ∧ (∀ visits n acc, ∃ t, (drive visits n acc).table = acc ++ t) := by
  constructor
  · intro v rest n acc h1 h2
    simp [drive, h1, h2]
  · intro visits n acc
    exact ⟨((processedDoms visits n).map scrapePage).flatten, drive_table_eq visits n acc⟩

/-- C6 witness: with both navigation attempts failing on page 3, the
traversal stalls, records the relaxed retry for page 3, and returns the two
rows accumulated before it unchanged. -/
theorem nav_failure_keeps_accumulated_witness :
    drive [⟨false, false, [], [], true⟩] 3 [["a"], ["b"]] =
      ⟨[["a"], ["b"]], [], [], [3], some .stalled⟩
    ∧ ∃ t, (drive [⟨false, false, [], [], true⟩] 3 [["a"], ["b"]]).table =
      [["a"], ["b"]] ++ t := by
  exact ⟨nav_failure_keeps_accumulated.1 ⟨false, false, [], [], true⟩ [] 3
      [["a"], ["b"]] rfl rfl,
    nav_failure_keeps_accumulated.2 [⟨false, false, [], [], true⟩] 3 [["a"], ["b"]]⟩

/-! ### C4: where the field-classification discipline lives -/

theorem fillPercent_price (t : String) (p : SlotState) :
    (fillPercent t p).price = p.price := by
  unfold fillPercent
  split_ifs <;> rfl

theorem fillPercent_volume (t : String) (p : SlotState) :
    (fillPercent t p).volume = p.volume := by
  unfold fillPercent
  split_ifs <;> rfl

theorem fillPercent_marketCap (t : String) (p : SlotState) :
    (fillPercent t p).marketCap = p.marketCap := by
  unfold fillPercent
  split_ifs <;> rfl

theorem fillLarge_price (t : String) (p : SlotState) :
    (fillLarge t p).price = p.price := by
  unfold fillLarge
  split_ifs <;> rfl

theorem fillLarge_change1h (t : String) (p : SlotState) :
    (fillLarge t p).change1h = p.change1h := by
  unfold fillLarge
  split_ifs <;> rfl

theorem fillLarge_change24h (t : String) (p : SlotState) :
    (fillLarge t p).change24h = p.change24h := by
  unfold fillLarge
  split_ifs <;> rfl

theorem fillLarge_change7d (t : String) (p : SlotState) :
    (fillLarge t p).change7d = p.change7d := by
  unfold fillLarge
  split_ifs <;> rfl

theorem fillPercent_change1h_mono (t : String) (p : SlotState) (w : String)
    (h : p.change1h = some w) : (fillPercent t p).change1h = some w := by
  unfold fillPercent
  split_ifs with g1 g2 g3
  · simp [h] at g1
  · exact h
  · exact h
  · exact h

theorem fillPercent_change24h_mono (t : String) (p : SlotState) (w : String)
    (h : p.change24h = some w) : (fillPercent t p).change24h = some w := by
  unfold fillPercent
  split_ifs with g1 g2 g3
  · exact h
  · simp [h] at g2
  · exact h
  · exact h

theorem fillPercent_change7d_mono (t : String) (p : SlotState) (w : String)
    (h : p.change7d = some w) : (fillPercent t p).change7d = some w := by
  unfold fillPercent
  split_ifs with g1 g2 g3
  · exact h
  · exact h
  · simp [h] at g3
  · exact h

theorem fillLarge_volume_mono (t : String) (p : SlotState) (w : String)
    (h : p.volume = some w) : (fillLarge t p).volume = some w := by
  unfold fillLarge
  split_ifs with g1 g2
  · simp [h] at g1
  · exact h
  · exact h

theorem fillLarge_marketCap_mono (t : String) (p : SlotState) (w : String)
    (h : p.marketCap = some w) : (fillLarge t p).marketCap = some w := by
  unfold fillLarge
  split_ifs with g1 g2
  · exact h
  · simp [h] at g2
  · exact h

theorem step_price_mono (name : String) (p : SlotState) (ic : Nat × String)
    (w : String) (h : p.price = some w) :
    (classifyStep name p ic).price = some w := by
  unfold classifyStep
  split_ifs with h1 h2 h3 h4 h5 h6
  · exact h
  · exact h
  · simp [h] at h3
  · rw [fillPercent_price]; exact h
  · rw [fillLarge_price]; exact h
  · rw [fillLarge_price]; exact h
  · exact h

theorem step_change1h_mono (name : String) (p : SlotState) (ic : Nat × String)
    (w : String) (h : p.change1h = some w) :
    (classifyStep name p ic).change1h = some w := by
  unfold classifyStep
  split_ifs with h1 h2 h3 h4 h5 h6
  · exact h
  · exact h
  · exact h
  · exact fillPercent_change1h_mono _ _ _ h
  · rw [fillLarge_change1h]; exact h
  · rw [fillLarge_change1h]; exact h
  · exact h

theorem step_change24h_mono (name : String) (p : SlotState) (ic : Nat × String)
    (w : String) (h : p.change24h = some w) :
    (classifyStep name p ic).change24h = some w := by
  unfold classifyStep
  split_ifs with h1 h2 h3 h4 h5 h6
  · exact h
  · exact h
  · exact h
  · exact fillPercent_change24h_mono _ _ _ h
  · rw [fillLarge_change24h]; exact h
  · rw [fillLarge_change24h]; exact h
  · exact h

theorem step_change7d_mono (name : String) (p : SlotState) (ic : Nat × String)
    (w : String) (h : p.change7d = some w) :
    (classifyStep name p ic).change7d = some w := by
  unfold classifyStep
  split_ifs with h1 h2 h3 h4 h5 h6
  · exact h
  · exact h
  · exact h
  · exact fillPercent_change7d_mono _ _ _ h
  · rw [fillLarge_change7d]; exact h
  · rw [fillLarge_change7d]; exact h
  · exact h

theorem step_volume_mono (name : String) (p : SlotState) (ic : Nat × String)
    (w : String) (h : p.volume = some w) :
    (classifyStep name p ic).volume = some w := by
  unfold classifyStep
  split_ifs with h1 h2 h3 h4 h5 h6
  · exact h
  · exact h
  · exact h
  · rw [fillPercent_volume]; exact h
  · exact fillLarge_volume_mono _ _ _ h
  · exact fillLarge_volume_mono _ _ _ h
  · exact h

theorem step_marketCap_mono (name : String) (p : SlotState) (ic : Nat × String)
    (w : String) (h : p.marketCap = some w) :
    (classifyStep name p ic).marketCap = some w := by
  unfold classifyStep
  split_ifs with h1 h2 h3 h4 h5 h6
  · exact h
  · exact h
  · exact h
  · rw [fillPercent_marketCap]; exact h
  · exact fillLarge_marketCap_mono _ _ _ h
  · exact fillLarge_marketCap_mono _ _ _ h
  · exact h

theorem fold_price_mono (name : String) (l : List (Nat × String)) :
    ∀ (p : SlotState) (w : String), p.price = some w →
    (l.foldl (classifyStep name) p).price = some w := by
  induction l with
  | nil => intro p w h; exact h
  | cons c cs ih => intro p w h; exact ih _ _ (step_price_mono name p c w h)

theorem fold_change1h_mono (name : String) (l : List (Nat × String)) :
    ∀ (p : SlotState) (w : String), p.change1h = some w →
    (l.foldl (classifyStep name) p).change1h = some w := by
  induction l with
  | nil => intro p w h; exact h
  | cons c cs ih => intro p w h; exact ih _ _ (step_change1h_mono name p c w h)

theorem fold_change24h_mono (name : String) (l : List (Nat × String)) :
    ∀ (p : SlotState) (w : String), p.change24h = some w →
    (l.foldl (classifyStep name) p).change24h = some w := by
  induction l with
  | nil => intro p w h; exact h
  | cons c cs ih => intro p w h; exact ih _ _ (step_change24h_mono name p c w h)

theorem fold_change7d_mono (name : String) (l : List (Nat × String)) :
    ∀ (p : SlotState) (w : String), p.change7d = some w →
    (l.foldl (classifyStep name) p).change7d = some w := by
  induction l with
  | nil => intro p w h; exact h
  | cons c cs ih => intro p w h; exact ih _ _ (step_change7d_mono name p c w h)

theorem fold_volume_mono (name : String) (l : List (Nat × String)) :
    ∀ (p : SlotState) (w : String), p.volume = some w →
    (l.foldl (classifyStep name) p).volume = some w := by
  induction l with
  | nil => intro p w h; exact h
  | cons c cs ih => intro p w h; exact ih _ _ (step_volume_mono name p c w h)

theorem fold_marketCap_mono (name : String) (l : List (Nat × String)) :
    ∀ (p : SlotState) (w : String), p.marketCap = some w →
    (l.foldl (classifyStep name) p).marketCap = some w := by
  induction l with
  | nil => intro p w h; exact h
  | cons c cs ih => intro p w h; exact ih _ _ (step_marketCap_mono name p c w h)

theorem good_fillPercent (t : String) (p : SlotState)
    (ht : hasChar t '%' = true) (h : GoodState p) :
    GoodState (fillPercent t p) := by
  obtain ⟨hp, h1, h2, h3, o1, o2, hv, hm, ov⟩ := h
  unfold fillPercent
  split_ifs with g1 g2 g3
  · refine ⟨hp, ?_, h2, h3, ?_, o2, hv, hm, ov⟩
    · intro w hw
      cases hw
      exact ht
    · intro _
      simp
  · refine ⟨hp, h1, ?_, h3, ?_, ?_, hv, hm, ov⟩
    · intro w hw
      cases hw
      exact ht
    · intro _
      cases hh : p.change1h with
      | none => rw [hh] at g1; simp at g1
      | some x => simp [hh]
    · intro _
      simp
  · refine ⟨hp, h1, h2, ?_, o1, ?_, hv, hm, ov⟩
    · intro w hw
      cases hw
      exact ht
    · intro _
      cases hh : p.change24h with
      | none => rw [hh] at g2; simp at g2
      | some x => simp [hh]
  · exact ⟨hp, h1, h2, h3, o1, o2, hv, hm, ov⟩

theorem good_fillLarge (t : String) (p : SlotState)
    (ht : bmkCond t = true ∨ largeNumPat t.data = true) (h : GoodState p) :
    GoodState (fillLarge t p) := by
  obtain ⟨hp, h1, h2, h3, o1, o2, hv, hm, ov⟩ := h
  unfold fillLarge
  split_ifs with g1 g2
  · refine ⟨hp, h1, h2, h3, o1, o2, ?_, hm, ?_⟩
    · intro w hw
      cases hw
      exact ht
    · intro _
      simp
  · refine ⟨hp, h1, h2, h3, o1, o2, hv, ?_, ?_⟩
    · intro w hw
      cases hw
      exact ht
    · intro _
      cases hh : p.volume with
      | none => rw [hh] at g1; simp at g1
      | some x => simp [hh]
  · exact ⟨hp, h1, h2, h3, o1, o2, hv, hm, ov⟩

theorem good_step (name : String) (p : SlotState) (ic : Nat × String)
    (h : GoodState p) : GoodState (classifyStep name p ic) := by
  unfold classifyStep
  split_ifs with h1 h2 h3 h4 h5 h6
  · exact h
  · exact h
  · obtain ⟨hp, h1c, h2c, h3c, o1, o2, hv, hm, ov⟩ := h
    refine ⟨?_, h1c, h2c, h3c, o1, o2, hv, hm, ov⟩
    intro w hw
    cases hw
    exact (Bool.and_eq_true _ _ |>.mp h3).2
  · exact good_fillPercent _ _ h4 h
  · exact good_fillLarge _ _ (Or.inl h5) h
  · exact good_fillLarge _ _ (Or.inr h6) h
  · exact h

theorem good_empty : GoodState SlotState.empty := by
  refine ⟨?_, ?_, ?_, ?_, ?_, ?_, ?_, ?_, ?_⟩ <;> simp [SlotState.empty]

theorem good_fold (name : String) (l : List (Nat × String)) :
    ∀ p : SlotState, GoodState p → GoodState (l.foldl (classifyStep name) p) := by
  induction l with
  | nil => intro p h; exact h
  | cons c cs ih => intro p h; exact ih _ (good_step name p c h)

theorem good_classifyCells (name : String) (cells : List String) :
    GoodState (classifyCells name cells) := by
  unfold classifyCells
  exact good_fold name cells.enum SlotState.empty good_empty

/-- C4 counterexample: the claim locates the heuristic field-classification
discipline in the flat-token fallback path, but that path assigns the slot
after the name positionally with no condition at all: a fallback row whose
second surviving token is `foo` (no currency symbol, no decimal pattern)
still lands `foo` in the price field. -/
theorem fallback_not_classified :
    ¬ ∀ (r : DomRow) (row : Row), fallbackRow r = some row →
        row.getD 1 "" ≠ "" → priceCond (row.getD 1 "") = true := by
  intro h
  have h2 := h ⟨[], none, "", "BitcoinX\nfoo\nbar\nbaz\nqux\nquux\ncorge"⟩
      ["BitcoinX", "foo", "bar", "baz", "qux", "quux", "corge", ""]
      (by decide) (by decide)
  exact absurd h2 (by decide)

/-- C4 (amended): the stated classification discipline belongs to the
primary cell-based extraction path, not the flat-token fallback (which
assigns fields purely positionally).  In the primary path: a cell value
becomes the price only if the price slot is unfilled and the value contains
a currency symbol or matches the decimal-number pattern; percent-bearing
cells fill 1h, then 24h, then 7d, first-seen-wins with no reassignment once
filled; large-number cells fill volume then market cap in order, equally
without reassignment; and every slot left unassigned is finalized to the
empty string. -/
theorem primary_classifier_discipline :
    (∀ name cells w, (classifyCells name cells).price = some w →
      priceCond w = true)
    ∧ (∀ name cells w, (classifyCells name cells).change1h = some w →
      hasChar w '%' = true)
    ∧ (∀ name cells w, (classifyCells name cells).change24h = some w →
      hasChar w '%' = true)
    ∧ (∀ name cells w, (classifyCells name cells).change7d = some w →
      hasChar w '%' = true)
    ∧ (∀ name cells, (classifyCells name cells).change24h.isSome →
      (classifyCells name cells).change1h.isSome)
    ∧ (∀ name cells, (classifyCells name cells).change7d.isSome →
      (classifyCells name cells).change24h.isSome)
    ∧ (∀ name cells w, (classifyCells name cells).volume = some w →
      bmkCond w = true ∨ largeNumPat w.data = true)
    ∧ (∀ name cells w, (classifyCells name cells).marketCap = some w →
      bmkCond w = true ∨ largeNumPat w.data = true)
    ∧ (∀ name cells, (classifyCells name cells).marketCap.isSome →
      (classifyCells name cells).volume.isSome)
    ∧ (∀ name (p : SlotState) (l : List (Nat × String)) w, p.price = some w →
      (l.foldl (classifyStep name) p).price = some w)
    ∧ (∀ name (p : SlotState) (l : List (Nat × String)) w, p.change1h = some w →
      (l.foldl (classifyStep name) p).change1h = some w)
    ∧ (∀ name (p : SlotState) (l : List (Nat × String)) w, p.change24h = some w →
      (l.foldl (classifyStep name) p).change24h = some w)
    ∧ (∀ name (p : SlotState) (l : List (Nat × String)) w, p.change7d = some w →
      (l.foldl (classifyStep name) p).change7d = some w)
    ∧ (∀ name (p : SlotState) (l : List (Nat × String)) w, p.volume = some w →
      (l.foldl (classifyStep name) p).volume = some w)
    ∧ (∀ name (p : SlotState) (l : List (Nat × String)) w, p.marketCap = some w →
      (l.foldl (classifyStep name) p).marketCap = some w)
    ∧ (∀ name url (p : SlotState), p.price = none →
      (finalizeItem name url p).price = "")
    ∧ (∀ name url (p : SlotState), p.change1h = none →
      (finalizeItem name url p).change1h = "")
    ∧ (∀ name url (p : SlotState), p.change24h = none →
      (finalizeItem name url p).change24h = "")
    ∧ (∀ name url (p : SlotState), p.change7d = none →
      (finalizeItem name url p).change7d = "")
    ∧ (∀ name url (p : SlotState), p.volume = none →
      (finalizeItem name url p).volume = "")
    ∧ (∀ name url (p : SlotState), p.marketCap = none →
      (finalizeItem name url p).marketCap = "")
    ∧ (∀ (r : DomRow) (row : Row), fallbackRow r = some row →
      row = [cleanCoinName ((fallbackFilter (fallbackParts r.innerText)).getD 0 ""),
        (fallbackFilter (fallbackParts r.innerText)).getD 1 "",
        (fallbackFilter (fallbackParts r.innerText)).getD 2 "",
        (fallbackFilter (fallbackParts r.innerText)).getD 3 "",
        (fallbackFilter (fallbackParts r.innerText)).getD 4 "",
        (fallbackFilter (fallbackParts r.innerText)).getD 5 "",
        (fallbackFilter (fallbackParts r.innerText)).getD 6 "",
        r.linkHref.getD ""]) := by
  refine ⟨fun name cells w h => (good_classifyCells name cells).1 w h,
    fun name cells w h => (good_classifyCells name cells).2.1 w h,
    fun name cells w h => (good_classifyCells name cells).2.2.1 w h,
    fun name cells w h => (good_classifyCells name cells).2.2.2.1 w h,
    fun name cells h => (good_classifyCells name cells).2.2.2.2.1 h,
    fun name cells h => (good_classifyCells name cells).2.2.2.2.2.1 h,
    fun name cells w h => (good_classifyCells name cells).2.2.2.2.2.2.1 w h,
    fun name cells w h => (good_classifyCells name cells).2.2.2.2.2.2.2.1 w h,
    fun name cells h => (good_classifyCells name cells).2.2.2.2.2.2.2.2 h,
    fun name p l w h => fold_price_mono name l p w h,
    fun name p l w h => fold_change1h_mono name l p w h,
    fun name p l w h => fold_change24h_mono name l p w h,
    fun name p l w h => fold_change7d_mono name l p w h,
    fun name p l w h => fold_volume_mono name l p w h,
    fun name p l w h => fold_marketCap_mono name l p w h,
    fun name url p h => by simp [finalizeItem, h],
    fun name url p h => by simp [finalizeItem, h],
    fun name url p h => by simp [finalizeItem, h],
    fun name url p h => by simp [finalizeItem, h],
    fun name url p h => by simp [finalizeItem, h],
    fun name url p h => by simp [finalizeItem, h],
    ?_⟩
  intro r row h
  simp only [fallbackRow] at h
  split at h
  · exact absurd h (by simp)
  · split at h
    · exact absurd h (by simp)
    · split at h
      · exact absurd h (by simp)
      · injection h with h2
        exact h2.symm

/-- C4 witness: the discipline evaluated on a concrete page-1 style row
(price filled from a dollar cell, percents filled in order, a filled slot
never reassigned, empty finalization), and the fallback's purely positional
assignment on a concrete flat-text row. -/
theorem primary_classifier_discipline_witness :
    priceCond "$50,000.12" = true
    ∧ hasChar "+1.5%" '%' = true
    ∧ (([(1, "9.9%")] : List (Nat × String)).foldl (classifyStep "n")
        ⟨some "$5.0", some "1%", none, none, none, none⟩).price = some "$5.0"
    ∧ (finalizeItem "n" "u" SlotState.empty).marketCap = ""
    ∧ (["BitcoinX", "foo", "bar", "baz", "qux", "quux", "corge", ""] : Row) =
      [cleanCoinName ((fallbackFilter (fallbackParts
          "BitcoinX\nfoo\nbar\nbaz\nqux\nquux\ncorge")).getD 0 ""),
        (fallbackFilter (fallbackParts
          "BitcoinX\nfoo\nbar\nbaz\nqux\nquux\ncorge")).getD 1 "",
        (fallbackFilter (fallbackParts
          "BitcoinX\nfoo\nbar\nbaz\nqux\nquux\ncorge")).getD 2 "",
        (fallbackFilter (fallbackParts
          "BitcoinX\nfoo\nbar\nbaz\nqux\nquux\ncorge")).getD 3 "",
        (fallbackFilter (fallbackParts
          "BitcoinX\nfoo\nbar\nbaz\nqux\nquux\ncorge")).getD 4 "",
        (fallbackFilter (fallbackParts
          "BitcoinX\nfoo\nbar\nbaz\nqux\nquux\ncorge")).getD 5 "",
        (fallbackFilter (fallbackParts
          "BitcoinX\nfoo\nbar\nbaz\nqux\nquux\ncorge")).getD 6 "",
        (none : Option String).getD ""] := by
  have h := primary_classifier_discipline
  refine ⟨h.1 "BTC" ["1", "BTC", "$50,000.12", "+1.5%", "-2.0%", "+3.1%",
      "$30B", "$900B"] "$50,000.12" (by decide),
    h.2.1 "BTC" ["1", "BTC", "$50,000.12", "+1.5%", "-2.0%", "+3.1%",
      "$30B", "$900B"] "+1.5%" (by decide),
    h.2.2.2.2.2.2.2.2.2.1 "n" ⟨some "$5.0", some "1%", none, none, none, none⟩
      [(1, "9.9%")] "$5.0" rfl,
    h.2.2.2.2.2.2.2.2.2.2.2.2.2.2.2.2.2.2.2.2.1 "n" "u" SlotState.empty rfl,
    ?_⟩
  exact (h.2.2.2.2.2.2.2.2.2.2.2.2.2.2.2.2.2.2.2.2.2)
      ⟨[], none, "", "BitcoinX\nfoo\nbar\nbaz\nqux\nquux\ncorge"⟩
      ["BitcoinX", "foo", "bar", "baz", "qux", "quux", "corge", ""] (by decide)

end CoinScraper
